import Mathlib

/-!
Shallow embedding of the `git-cmd` crate (files `src/lib.rs`, `src/init.rs`):
a typed builder for the `git init` subcommand whose finalization
(`make_cmd`) renders the configured fields into an ordered argument vector.
Paths and strings handed to the builder are modelled as `String`; the
produced `std::process::Command` is modelled as a program name together
with its ordered argument list.
-/

namespace GitCmd

/-- Which hash the repo uses (`Hash` in `init.rs`). -/
inductive Hash where
  | Sha1
  | Sha256
deriving DecidableEq

/-- Options for the `shared` function (`Shared` in `init.rs`).
`Octal` carries a `u16` in Rust; we model it as a `Nat` and add the
bound `< 2^16` in theorems where the domain matters. -/
inductive Shared where
  | Umask
  | False
  | Group
  | True
  | All
  | World
  | Everybody
  | Octal (perm : Nat)
deriving DecidableEq

/-- The builder state for `git init` (`GitInitBuilder` in `init.rs`). -/
structure GitInitBuilder where
  quiet : Bool
  bare : Bool
  template : Option String
  initial_branch : Option String
  separate_git_dir : Option String
  object_format : Option Hash
  shared : Option Shared
  directory : Option String
deriving DecidableEq

/-- `GitInitBuilder::new()`: all flags off, all optional fields unset. -/
def GitInitBuilder.new : GitInitBuilder where
  quiet := false
  bare := false
  template := none
  initial_branch := none
  separate_git_dir := none
  object_format := none
  shared := none
  directory := none

/-- `Git::init()` from `lib.rs`: just a wrapper around `GitInitBuilder::new`. -/
def Git.init : GitInitBuilder := GitInitBuilder.new

/-- Builder method `quiet` (named `setQuiet` because the field projection
already takes the source name). -/
def GitInitBuilder.setQuiet (b : GitInitBuilder) : GitInitBuilder :=
  { b with quiet := true }

/-- Builder method `bare`. -/
def GitInitBuilder.setBare (b : GitInitBuilder) : GitInitBuilder :=
  { b with bare := true }

/-- Builder method `template`. -/
def GitInitBuilder.setTemplate (b : GitInitBuilder) (path : String) : GitInitBuilder :=
  { b with template := some path }

/-- Builder method `initial_branch`. -/
def GitInitBuilder.setInitialBranch (b : GitInitBuilder) (name : String) : GitInitBuilder :=
  { b with initial_branch := some name }

/-- Builder method `separate_git_dir`. -/
def GitInitBuilder.setSeparateGitDir (b : GitInitBuilder) (path : String) : GitInitBuilder :=
  { b with separate_git_dir := some path }

/-- Builder method `object_format`. -/
def GitInitBuilder.setObjectFormat (b : GitInitBuilder) (obj : Hash) : GitInitBuilder :=
  { b with object_format := some obj }

/-- Builder method `shared`. -/
def GitInitBuilder.setShared (b : GitInitBuilder) (s : Shared) : GitInitBuilder :=
  { b with shared := some s }

/-- Builder method `directory`. -/
def GitInitBuilder.setDirectory (b : GitInitBuilder) (path : String) : GitInitBuilder :=
  { b with directory := some path }

/-- The octal digit character for `d` (`d` is always a value mod 8 below). -/
def octDigitChar : Nat → Char
  | 0 => '0'
  | 1 => '1'
  | 2 => '2'
  | 3 => '3'
  | 4 => '4'
  | 5 => '5'
  | 6 => '6'
  | 7 => '7'
  | _ => '*'

/-- Fuel-driven octal digit emission, least significant digit handled first
and consed onto the accumulator so the result is most-significant first.
This mirrors how Rust's formatter writes `{:o}`. -/
def octDigitsCore : Nat → Nat → List Char → List Char
  | 0, _, acc => acc
  | fuel + 1, n, acc =>
    if n < 8 then octDigitChar (n % 8) :: acc
    else octDigitsCore fuel (n / 8) (octDigitChar (n % 8) :: acc)

/-- The octal digits of `n`, most significant first (`"0"` for zero). -/
def octDigits (n : Nat) : List Char :=
  octDigitsCore (n + 1) n []

/-- Model of Rust's `format!("{:04o}", n)`: the octal digits of `n`,
left-padded with `'0'` to a minimum width of 4. -/
def rustOctal4 (n : Nat) : String :=
  ⟨List.replicate (4 - (octDigits n).length) '0' ++ octDigits n⟩

/-- The string placed after `--shared=` for each `Shared` variant
(the `match shared` arm of `make_cmd`, `init.rs` lines 136-146). -/
def sharedArgValue : Shared → String
  | .Umask => "umask"
  | .False => "false"
  | .Group => "group"
  | .True => "true"
  | .All => "all"
  | .World => "world"
  | .Everybody => "everybody"
  | .Octal perm => rustOctal4 perm

/-- The string emitted for each `Hash` variant (`init.rs` lines 129-132). -/
def hashArg : Hash → String
  | .Sha1 => "sha1"
  | .Sha256 => "sha256"

/-- Model of `std::process::Command` as far as this crate populates it:
a program name and the ordered argument list. -/
structure RustCommand where
  program : String
  args : List String
deriving DecidableEq

/-- `GitInitBuilder::make_cmd` (`init.rs` lines 103-153), translated
statement by statement: each `cmd.arg(..)` append becomes a list append. -/
def GitInitBuilder.make_cmd (self : GitInitBuilder) : RustCommand :=
  let args : List String := ["init"]
  let args := if self.quiet then args ++ ["--quiet"] else args
  let args := if self.bare then args ++ ["--bare"] else args
  let args :=
    match self.template with
    | some path => args ++ ["--template", path]
    | none => args
  let args :=
    match self.separate_git_dir with
    | some path => args ++ ["--separate-git-dir", path]
    | none => args
  let args :=
    match self.initial_branch with
    | some name => args ++ ["--initial-branch", name]
    | none => args
  let args :=
    match self.object_format with
    | some obj => args ++ ["--object-format", hashArg obj]
    | none => args
  let args :=
    match self.shared with
    | some s => args ++ ["--shared=" ++ sharedArgValue s]
    | none => args
  let args :=
    match self.directory with
    | some path => args ++ [path]
    | none => args
  { program := "git", args := args }

/-- One configuration call, used to quantify over arbitrary sequences of
builder-method invocations. -/
inductive ConfigCall where
  | quiet
  | bare
  | template (path : String)
  | initial_branch (name : String)
  | separate_git_dir (path : String)
  | object_format (obj : Hash)
  | shared (s : Shared)
  | directory (path : String)
deriving DecidableEq

/-- Apply one configuration call to a builder. -/
def applyCall (b : GitInitBuilder) : ConfigCall → GitInitBuilder
  | .quiet => b.setQuiet
  | .bare => b.setBare
  | .template p => b.setTemplate p
  | .initial_branch n => b.setInitialBranch n
  | .separate_git_dir p => b.setSeparateGitDir p
  | .object_format o => b.setObjectFormat o
  | .shared s => b.setShared s
  | .directory p => b.setDirectory p

/-- Apply a sequence of configuration calls, left to right. -/
def applyCalls (b : GitInitBuilder) (cs : List ConfigCall) : GitInitBuilder :=
  cs.foldl applyCall b

/-- Names for the eight configurable fields of the builder. -/
inductive Field where
  | quiet
  | bare
  | template
  | separate_git_dir
  | initial_branch
  | object_format
  | shared
  | directory
deriving DecidableEq

/-- The tokens a given field contributes to the finalized argument vector
(read off the corresponding branch of `make_cmd`). -/
def fieldTokens (b : GitInitBuilder) : Field → List String
  | .quiet => if b.quiet then ["--quiet"] else []
  | .bare => if b.bare then ["--bare"] else []
  | .template =>
    match b.template with
    | some path => ["--template", path]
    | none => []
  | .separate_git_dir =>
    match b.separate_git_dir with
    | some path => ["--separate-git-dir", path]
    | none => []
  | .initial_branch =>
    match b.initial_branch with
    | some name => ["--initial-branch", name]
    | none => []
  | .object_format =>
    match b.object_format with
    | some obj => ["--object-format", hashArg obj]
    | none => []
  | .shared =>
    match b.shared with
    | some s => ["--shared=" ++ sharedArgValue s]
    | none => []
  | .directory =>
    match b.directory with
    | some path => [path]
    | none => []

/-- The fixed emission order of the fields, as the spec lists it:
quiet, bare, template, separate_git_dir, initial_branch, object_format,
shared, directory (positional last). -/
def fieldOrder : List Field :=
  [.quiet, .bare, .template, .separate_git_dir, .initial_branch,
   .object_format, .shared, .directory]

/-- Modelled from the spec's words (section 3 and section 4.2): the
subcommand name first, then each set field's tokens in the fixed order,
then the positional directory token. Used to compare the source's
`make_cmd` against the specified ordering. -/
def specOrderedTokens (b : GitInitBuilder) : List String :=
  ["init"]
    ++ (if b.quiet then ["--quiet"] else [])
    ++ (if b.bare then ["--bare"] else [])
    ++ (match b.template with
        | some path => ["--template", path]
        | none => [])
    ++ (match b.separate_git_dir with
        | some path => ["--separate-git-dir", path]
        | none => [])
    ++ (match b.initial_branch with
        | some name => ["--initial-branch", name]
        | none => [])
    ++ (match b.object_format with
        | some obj => ["--object-format", hashArg obj]
        | none => [])
    ++ (match b.shared with
        | some s => ["--shared=" ++ sharedArgValue s]
        | none => [])
    ++ (match b.directory with
        | some path => [path]
        | none => [])

/-- Two builders agree on a given field. -/
def agreesOn (f : Field) (b1 b2 : GitInitBuilder) : Prop :=
  match f with
  | .quiet => b1.quiet = b2.quiet
  | .bare => b1.bare = b2.bare
  | .template => b1.template = b2.template
  | .separate_git_dir => b1.separate_git_dir = b2.separate_git_dir
  | .initial_branch => b1.initial_branch = b2.initial_branch
  | .object_format => b1.object_format = b2.object_format
  | .shared => b1.shared = b2.shared
  | .directory => b1.directory = b2.directory

/-- A field is unset in a builder: boolean flags are `false`, optional
fields are `none`. -/
def fieldUnset (b : GitInitBuilder) : Field → Prop
  | .quiet => b.quiet = false
  | .bare => b.bare = false
  | .template => b.template = none
  | .separate_git_dir => b.separate_git_dir = none
  | .initial_branch => b.initial_branch = none
  | .object_format => b.object_format = none
  | .shared => b.shared = none
  | .directory => b.directory = none

/-- The field a configuration call writes to. -/
def ConfigCall.field : ConfigCall → Field
  | .quiet => .quiet
  | .bare => .bare
  | .template _ => .template
  | .initial_branch _ => .initial_branch
  | .separate_git_dir _ => .separate_git_dir
  | .object_format _ => .object_format
  | .shared _ => .shared
  | .directory _ => .directory

lemma make_cmd_args_join (b : GitInitBuilder) :
    (b.make_cmd).args = "init" :: (fieldOrder.map (fieldTokens b)).flatten := by
  obtain ⟨q, br, t, ib, sg, of, sh, d⟩ := b
  cases q <;> cases br <;> cases t <;> cases ib <;> cases sg <;> cases of <;>
    cases sh <;> cases d <;> rfl

lemma specOrderedTokens_eq_join (b : GitInitBuilder) :
    specOrderedTokens b = "init" :: (fieldOrder.map (fieldTokens b)).flatten := by
  obtain ⟨q, br, t, ib, sg, of, sh, d⟩ := b
  cases q <;> cases br <;> cases t <;> cases ib <;> cases sg <;> cases of <;>
    cases sh <;> cases d <;> rfl

lemma make_cmd_args_eq_spec (b : GitInitBuilder) :
    (b.make_cmd).args = specOrderedTokens b :=
  (make_cmd_args_join b).trans (specOrderedTokens_eq_join b).symm

lemma make_cmd_directory_last (b : GitInitBuilder) (d : String)
    (h : b.directory = some d) :
    ∃ pre, (b.make_cmd).args = pre ++ [d] := by
  simp only [GitInitBuilder.make_cmd, h]
  exact ⟨_, rfl⟩

lemma make_cmd_program (b : GitInitBuilder) : (b.make_cmd).program = "git" := rfl

/-- Recursive (fuel-free) form of the octal digit list, used to reason
about `octDigitsCore`. -/
def octDigitsAbs (n : Nat) : List Char :=
  if _h : n < 8 then [octDigitChar n]
  else octDigitsAbs (n / 8) ++ [octDigitChar (n % 8)]
termination_by n
decreasing_by exact Nat.div_lt_self (by omega) (by omega)

lemma octDigitsCore_eq (fuel : Nat) :
    ∀ n acc, n < fuel → octDigitsCore fuel n acc = octDigitsAbs n ++ acc := by
  induction fuel with
  | zero => intro n acc h; omega
  | succ fuel ih =>
    intro n acc h
    by_cases h8 : n < 8
    · rw [octDigitsAbs, dif_pos h8]
      simp [octDigitsCore, h8, Nat.mod_eq_of_lt h8]
    · have hfuel : n / 8 < fuel := by
        have := Nat.div_lt_self (show 0 < n by omega) (show 1 < 8 by omega)
        omega
      rw [octDigitsAbs, dif_neg h8]
      simp only [octDigitsCore, if_neg h8]
      rw [ih (n / 8) (octDigitChar (n % 8) :: acc) hfuel]
      simp

lemma octDigits_eq_abs (n : Nat) : octDigits n = octDigitsAbs n := by
  have h := octDigitsCore_eq (n + 1) n [] (by omega)
  simpa [octDigits] using h

/-- Spec-side reading of a digit string as an octal numeral. -/
def octValue (l : List Char) : Nat :=
  l.foldl (fun acc c => acc * 8 + (c.toNat - 48)) 0

lemma octValue_append (l : List Char) (c : Char) :
    octValue (l ++ [c]) = octValue l * 8 + (c.toNat - 48) := by
  simp [octValue, List.foldl_append]

lemma octDigitChar_toNat (d : Nat) (h : d < 8) :
    (octDigitChar d).toNat = 48 + d := by
  interval_cases d <;> rfl

lemma octValue_octDigitsAbs (n : Nat) : octValue (octDigitsAbs n) = n := by
  induction n using Nat.strong_induction_on with
  | _ n ih =>
    rw [octDigitsAbs]
    by_cases h : n < 8
    · rw [dif_pos h]
      have h1 : octValue [octDigitChar n] = (octDigitChar n).toNat - 48 := by
        simp [octValue]
      rw [h1, octDigitChar_toNat n h]
      omega
    · rw [dif_neg h, octValue_append,
          ih (n / 8) (Nat.div_lt_self (by omega) (by omega)),
          octDigitChar_toNat (n % 8) (Nat.mod_lt n (by omega))]
      omega

lemma octDigitsAbs_mem (n : Nat) :
    ∀ c ∈ octDigitsAbs n, 48 ≤ c.toNat ∧ c.toNat ≤ 55 := by
  induction n using Nat.strong_induction_on with
  | _ n ih =>
    rw [octDigitsAbs]
    by_cases h : n < 8
    · rw [dif_pos h]
      intro c hc
      simp only [List.mem_singleton] at hc
      subst hc
      rw [octDigitChar_toNat n h]
      omega
    · rw [dif_neg h]
      intro c hc
      rw [List.mem_append] at hc
      rcases hc with hc | hc
      · exact ih (n / 8) (Nat.div_lt_self (by omega) (by omega)) c hc
      · simp only [List.mem_singleton] at hc
        subst hc
        rw [octDigitChar_toNat (n % 8) (Nat.mod_lt n (by omega))]
        have := Nat.mod_lt n (show 0 < 8 by omega)
        omega

lemma octDigitsAbs_length_le :
    ∀ k n : Nat, n < 8 ^ (k + 1) → (octDigitsAbs n).length ≤ k + 1 := by
  intro k
  induction k with
  | zero =>
    intro n h
    rw [octDigitsAbs, dif_pos (by simpa using h)]
    simp
  | succ k ih =>
    intro n h
    rw [octDigitsAbs]
    by_cases h8 : n < 8
    · rw [dif_pos h8]; simp
    · rw [dif_neg h8]
      have hd : n / 8 < 8 ^ (k + 1) := by
        rw [Nat.div_lt_iff_lt_mul (by omega)]
        calc n < 8 ^ (k + 1 + 1) := h
          _ = 8 ^ (k + 1) * 8 := by rw [pow_succ]
      have := ih (n / 8) hd
      simp only [List.length_append, List.length_singleton]
      omega

lemma octDigitsAbs_length_pos (n : Nat) : 1 ≤ (octDigitsAbs n).length := by
  rw [octDigitsAbs]
  by_cases h : n < 8
  · rw [dif_pos h]; simp
  · rw [dif_neg h]; simp

lemma octValue_replicate_zero (k : Nat) (l : List Char) :
    octValue (List.replicate k '0' ++ l) = octValue l := by
  induction k with
  | zero => simp
  | succ k ih =>
    rw [List.replicate_succ, List.cons_append]
    have h0 : octValue ('0' :: (List.replicate k '0' ++ l))
        = octValue (List.replicate k '0' ++ l) := by
      simp [octValue]
    rw [h0, ih]

lemma rustOctal4_data (n : Nat) :
    (rustOctal4 n).data
      = List.replicate (4 - (octDigits n).length) '0' ++ octDigits n := rfl

lemma rustOctal4_length (n : Nat) :
    (rustOctal4 n).length = max 4 (octDigits n).length := by
  have h1 : 1 ≤ (octDigits n).length := by
    rw [octDigits_eq_abs]; exact octDigitsAbs_length_pos n
  show (rustOctal4 n).data.length = max 4 (octDigits n).length
  rw [rustOctal4_data]
  simp only [List.length_append, List.length_replicate]
  omega

lemma mem_fieldTokens_quiet (b : GitInitBuilder) (x : String) :
    x ∈ fieldTokens b .quiet ↔ b.quiet = true ∧ x = "--quiet" := by
  cases hb : b.quiet <;> simp [fieldTokens, hb]

lemma mem_fieldTokens_bare (b : GitInitBuilder) (x : String) :
    x ∈ fieldTokens b .bare ↔ b.bare = true ∧ x = "--bare" := by
  cases hb : b.bare <;> simp [fieldTokens, hb]

lemma mem_fieldTokens_template (b : GitInitBuilder) (x : String) :
    x ∈ fieldTokens b .template ↔
      ∃ p, b.template = some p ∧ (x = "--template" ∨ x = p) := by
  cases hb : b.template <;> simp [fieldTokens, hb]

lemma mem_fieldTokens_sgd (b : GitInitBuilder) (x : String) :
    x ∈ fieldTokens b .separate_git_dir ↔
      ∃ p, b.separate_git_dir = some p ∧ (x = "--separate-git-dir" ∨ x = p) := by
  cases hb : b.separate_git_dir <;> simp [fieldTokens, hb]

lemma mem_fieldTokens_ib (b : GitInitBuilder) (x : String) :
    x ∈ fieldTokens b .initial_branch ↔
      ∃ nm, b.initial_branch = some nm ∧ (x = "--initial-branch" ∨ x = nm) := by
  cases hb : b.initial_branch <;> simp [fieldTokens, hb]

lemma mem_fieldTokens_of (b : GitInitBuilder) (x : String) :
    x ∈ fieldTokens b .object_format ↔
      ∃ o, b.object_format = some o ∧ (x = "--object-format" ∨ x = hashArg o) := by
  cases hb : b.object_format <;> simp [fieldTokens, hb]

lemma mem_fieldTokens_shared (b : GitInitBuilder) (x : String) :
    x ∈ fieldTokens b .shared ↔
      ∃ s, b.shared = some s ∧ x = "--shared=" ++ sharedArgValue s := by
  cases hb : b.shared <;> simp [fieldTokens, hb]

lemma mem_fieldTokens_dir (b : GitInitBuilder) (x : String) :
    x ∈ fieldTokens b .directory ↔
      ∃ p, b.directory = some p ∧ x = p := by
  cases hb : b.directory <;> simp [fieldTokens, hb]

lemma mem_make_cmd_args (b : GitInitBuilder) (x : String) :
    x ∈ (b.make_cmd).args ↔
      x = "init" ∨
      (b.quiet = true ∧ x = "--quiet") ∨
      (b.bare = true ∧ x = "--bare") ∨
      (∃ p, b.template = some p ∧ (x = "--template" ∨ x = p)) ∨
      (∃ p, b.separate_git_dir = some p ∧ (x = "--separate-git-dir" ∨ x = p)) ∨
      (∃ nm, b.initial_branch = some nm ∧ (x = "--initial-branch" ∨ x = nm)) ∨
      (∃ o, b.object_format = some o ∧ (x = "--object-format" ∨ x = hashArg o)) ∨
      (∃ s, b.shared = some s ∧ x = "--shared=" ++ sharedArgValue s) ∨
      (∃ p, b.directory = some p ∧ x = p) := by
  rw [make_cmd_args_join]
  simp only [fieldOrder, List.map_cons, List.map_nil, List.flatten_cons,
    List.flatten_nil, List.append_nil, List.mem_cons, List.mem_append,
    mem_fieldTokens_quiet, mem_fieldTokens_bare, mem_fieldTokens_template,
    mem_fieldTokens_sgd, mem_fieldTokens_ib, mem_fieldTokens_of,
    mem_fieldTokens_shared, mem_fieldTokens_dir, or_assoc]

/-- C1 (counterexample): the claim says `Shared.Umask` and `Shared.False`
finalize to the same shared token; in the code they finalize to the
distinct tokens `--shared=umask` and `--shared=false`. -/
theorem shared_umask_false_tokens_differ :
    ((Git.init.setShared Shared.Umask).make_cmd).args = ["init", "--shared=umask"] ∧
    ((Git.init.setShared Shared.False).make_cmd).args = ["init", "--shared=false"] ∧
    ((Git.init.setShared Shared.Umask).make_cmd).args
      ≠ ((Git.init.setShared Shared.False).make_cmd).args := by
  refine ⟨rfl, rfl, ?_⟩
  decide

/-- C1 (amended): each `Shared` variant is rendered as its own lowercase
name after `--shared=`; the members of each alias group {Umask, False},
{Group, True}, {All, World, Everybody} are aliases only in the wrapped
tool's semantics and produce pairwise distinct tokens. -/
theorem shared_variant_token_map :
    ((Git.init.setShared Shared.Umask).make_cmd).args = ["init", "--shared=umask"] ∧
    ((Git.init.setShared Shared.False).make_cmd).args = ["init", "--shared=false"] ∧
    ((Git.init.setShared Shared.Group).make_cmd).args = ["init", "--shared=group"] ∧
    ((Git.init.setShared Shared.True).make_cmd).args = ["init", "--shared=true"] ∧
    ((Git.init.setShared Shared.All).make_cmd).args = ["init", "--shared=all"] ∧
    ((Git.init.setShared Shared.World).make_cmd).args = ["init", "--shared=world"] ∧
    ((Git.init.setShared Shared.Everybody).make_cmd).args = ["init", "--shared=everybody"] := by
  exact ⟨rfl, rfl, rfl, rfl, rfl, rfl, rfl⟩

/-- C2: for every sequence of configuration calls, the finalized argument
vector equals the spec's fixed-order rendering (quiet, bare, template,
separate_git_dir, initial_branch, object_format, shared, directory), its
first token is the subcommand name `init`, and the directory token, when
present, is the last token. -/
theorem make_cmd_token_order (cs : List ConfigCall) :
    ((applyCalls Git.init cs).make_cmd).args = specOrderedTokens (applyCalls Git.init cs) ∧
    ((applyCalls Git.init cs).make_cmd).args.head? = some "init" ∧
    ∀ d, (applyCalls Git.init cs).directory = some d →
      ∃ pre, ((applyCalls Git.init cs).make_cmd).args = pre ++ [d] := by
  refine ⟨make_cmd_args_eq_spec _, ?_, fun d hd => make_cmd_directory_last _ d hd⟩
  rw [make_cmd_args_join]
  rfl

theorem make_cmd_token_order_witness :
    ∃ pre, ((applyCalls Git.init
        [ConfigCall.quiet, ConfigCall.directory "/tmp/repo"]).make_cmd).args
      = pre ++ ["/tmp/repo"] :=
  (make_cmd_token_order [ConfigCall.quiet, ConfigCall.directory "/tmp/repo"]).2.2
    "/tmp/repo" rfl

/-- C3 (counterexample): at permission value 4096 (inside the u16 domain)
the emitted octal string has five digits, not four: the shared token is
`--shared=10000`. -/
theorem octal_4096_not_four_digits :
    ((Git.init.setShared (Shared.Octal 4096)).make_cmd).args
      = ["init", "--shared=10000"] ∧
    (sharedArgValue (Shared.Octal 4096)).length ≠ 4 := by
  constructor
  · decide
  · decide

/-- C3 (amended): for every u16 value n, the shared token is `--shared=`
followed by a string of octal digit characters that reads back, as an
octal numeral, to n; the string is zero-padded to a minimum width of 4,
and has exactly 4 digits whenever n < 0o10000 = 4096. -/
theorem octal_format_reads_back (n : Nat) (h : n < 65536) :
    ∃ s : String,
      ((Git.init.setShared (Shared.Octal n)).make_cmd).args
        = ["init", "--shared=" ++ s] ∧
      (∀ c ∈ s.data, 48 ≤ c.toNat ∧ c.toNat ≤ 55) ∧
      octValue s.data = n ∧
      4 ≤ s.length ∧
      (n < 4096 → s.length = 4) := by
  refine ⟨rustOctal4 n, rfl, ?_, ?_, ?_, ?_⟩
  · intro c hc
    rw [rustOctal4_data, List.mem_append] at hc
    rcases hc with hc | hc
    · rw [List.eq_of_mem_replicate hc]
      constructor <;> decide
    · rw [octDigits_eq_abs] at hc
      exact octDigitsAbs_mem n c hc
  · rw [rustOctal4_data, octValue_replicate_zero, octDigits_eq_abs,
        octValue_octDigitsAbs]
  · rw [rustOctal4_length]
    exact le_max_left 4 _
  · intro h4
    rw [rustOctal4_length]
    have hle : (octDigits n).length ≤ 4 := by
      rw [octDigits_eq_abs]
      refine octDigitsAbs_length_le 3 n ?_
      have : (8 : Nat) ^ (3 + 1) = 4096 := by norm_num
      omega
    exact Nat.max_eq_left hle

theorem octal_format_reads_back_witness :
    ∃ s : String,
      ((Git.init.setShared (Shared.Octal 416)).make_cmd).args
        = ["init", "--shared=" ++ s] ∧
      (∀ c ∈ s.data, 48 ≤ c.toNat ∧ c.toNat ≤ 55) ∧
      octValue s.data = 416 ∧
      4 ≤ s.length ∧
      (416 < 4096 → s.length = 4) :=
  octal_format_reads_back 416 (by decide)

/-- C4: `Shared.Octal 511` finalizes to the single combined token
`--shared=0777` and `Shared.Octal 416` to `--shared=0640`; in each case
exactly one argument starts with `--shared=`. -/
theorem octal_concrete_tokens :
    ((Git.init.setShared (Shared.Octal 511)).make_cmd).args
      = ["init", "--shared=0777"] ∧
    ((Git.init.setShared (Shared.Octal 416)).make_cmd).args
      = ["init", "--shared=0640"] ∧
    (((Git.init.setShared (Shared.Octal 511)).make_cmd).args.filter
        (fun t => t.data.take 9 == "--shared=".data)).length = 1 ∧
    (((Git.init.setShared (Shared.Octal 416)).make_cmd).args.filter
        (fun t => t.data.take 9 == "--shared=".data)).length = 1 := by
  refine ⟨by decide, by decide, by decide, by decide⟩

/-- C5: the three end-to-end scenarios: only directory set; quiet, bare
and directory set; only object_format = Sha256 set (whose output contains
the contiguous pair `--object-format`, `sha256`). -/
theorem end_to_end_scenarios :
    ((applyCalls Git.init [ConfigCall.directory "/tmp/repo"]).make_cmd).args
      = ["init", "/tmp/repo"] ∧
    ((applyCalls Git.init
        [ConfigCall.quiet, ConfigCall.bare, ConfigCall.directory "/tmp/repo"]).make_cmd).args
      = ["init", "--quiet", "--bare", "/tmp/repo"] ∧
    ∃ pre post,
      ((applyCalls Git.init [ConfigCall.object_format Hash.Sha256]).make_cmd).args
        = pre ++ ["--object-format", "sha256"] ++ post := by
  exact ⟨rfl, rfl, ["init"], [], rfl⟩

/-- C6: configuring the same field twice keeps only the second value: the
resulting builder state and its finalized command coincide with those of a
single call with the second value. -/
theorem config_overwrite (b : GitInitBuilder) (c1 c2 : ConfigCall)
    (h : c1.field = c2.field) :
    applyCall (applyCall b c1) c2 = applyCall b c2 ∧
    (applyCall (applyCall b c1) c2).make_cmd = (applyCall b c2).make_cmd := by
  have heq : applyCall (applyCall b c1) c2 = applyCall b c2 := by
    cases c1 <;> cases c2 <;> first
      | rfl
      | simp [ConfigCall.field] at h
  exact ⟨heq, by rw [heq]⟩

theorem config_overwrite_witness :
    applyCall (applyCall GitInitBuilder.new (ConfigCall.initial_branch "main"))
        (ConfigCall.initial_branch "trunk")
      = applyCall GitInitBuilder.new (ConfigCall.initial_branch "trunk") :=
  (config_overwrite GitInitBuilder.new (ConfigCall.initial_branch "main")
    (ConfigCall.initial_branch "trunk") rfl).1

/-- C7: an unset field contributes no tokens: the argument vector
decomposes into the per-field segments, every unset field's segment is
empty, and in particular a builder on which quiet was never set emits no
`--quiet` token as long as no string-valued field was handed the literal
string "--quiet". -/
theorem unset_field_emits_no_token (b : GitInitBuilder) :
    (b.make_cmd).args = "init" :: (fieldOrder.map (fieldTokens b)).flatten ∧
    (∀ f : Field, fieldUnset b f → fieldTokens b f = []) ∧
    (b.quiet = false →
      b.template ≠ some "--quiet" →
      b.separate_git_dir ≠ some "--quiet" →
      b.initial_branch ≠ some "--quiet" →
      b.directory ≠ some "--quiet" →
      "--quiet" ∉ (b.make_cmd).args) := by
  refine ⟨make_cmd_args_join b, ?_, ?_⟩
  · intro f hf
    cases f <;> simp only [fieldUnset] at hf <;> simp [fieldTokens, hf]
  · intro hq ht hs hi hd hmem
    rw [mem_make_cmd_args] at hmem
    rcases hmem with h | h | h | h | h | h | h | h | h
    · exact absurd h (by decide)
    · rw [hq] at h
      exact Bool.noConfusion h.1
    · exact absurd h.2 (by decide)
    · obtain ⟨p, hp, hx | hx⟩ := h
      · exact absurd hx (by decide)
      · rw [← hx] at hp
        exact ht hp
    · obtain ⟨p, hp, hx | hx⟩ := h
      · exact absurd hx (by decide)
      · rw [← hx] at hp
        exact hs hp
    · obtain ⟨nm, hp, hx | hx⟩ := h
      · exact absurd hx (by decide)
      · rw [← hx] at hp
        exact hi hp
    · obtain ⟨o, hp, hx | hx⟩ := h
      · exact absurd hx (by decide)
      · cases o <;> exact absurd hx (by decide)
    · obtain ⟨s, hp, hx⟩ := h
      have hlen := congrArg String.length hx
      rw [String.length_append] at hlen
      have h7 : ("--quiet" : String).length = 7 := by decide
      have h9 : ("--shared=" : String).length = 9 := by decide
      omega
    · obtain ⟨p, hp, hx⟩ := h
      rw [← hx] at hp
      exact hd hp

theorem unset_field_emits_no_token_witness :
    "--quiet" ∉ ((Git.init.setDirectory "/tmp/repo").make_cmd).args :=
  (unset_field_emits_no_token (Git.init.setDirectory "/tmp/repo")).2.2
    rfl (by decide) (by decide) (by decide) (by decide)

/-- C8: the tokens emitted for a field depend only on that field's value:
if two builders agree on every field other than f, then for every field
other than f the emitted segments coincide; the only cross-field
constraint is that the positional directory token comes last. -/
theorem cross_field_independence (f : Field) (b1 b2 : GitInitBuilder)
    (hag : ∀ g, g ≠ f → agreesOn g b1 b2) :
    (∀ g, g ≠ f → fieldTokens b1 g = fieldTokens b2 g) ∧
    (∀ d, b1.directory = some d → ∃ pre, (b1.make_cmd).args = pre ++ [d]) := by
  refine ⟨?_, fun d hd => make_cmd_directory_last b1 d hd⟩
  intro g hg
  have h := hag g hg
  cases g <;> simp only [agreesOn] at h <;> simp [fieldTokens, h]

theorem cross_field_independence_witness :
    (∀ g, g ≠ Field.quiet →
      fieldTokens ((Git.init.setDirectory "/r").setQuiet) g
        = fieldTokens (Git.init.setDirectory "/r") g) ∧
    (∀ d, ((Git.init.setDirectory "/r").setQuiet).directory = some d →
      ∃ pre, (((Git.init.setDirectory "/r").setQuiet).make_cmd).args = pre ++ [d]) :=
  cross_field_independence Field.quiet ((Git.init.setDirectory "/r").setQuiet)
    (Git.init.setDirectory "/r")
    (by intro g hg; cases g <;> first | rfl | exact absurd rfl hg)

/-- C9: every configuration method and the finalization are total over
their typed domains: every `Shared` variant (the `Octal` payload
included) renders to a nonempty string, every `Hash` variant renders to
one of the two documented strings, and every builder reachable by any
call sequence finalizes to program `git` with a nonempty argument
vector. -/
theorem builder_operations_total (s : Shared) (hv : Hash)
    (b : GitInitBuilder) (cs : List ConfigCall) :
    0 < (sharedArgValue s).length ∧
    (hashArg hv = "sha1" ∨ hashArg hv = "sha256") ∧
    ((applyCalls b cs).make_cmd).program = "git" ∧
    0 < ((applyCalls b cs).make_cmd).args.length := by
  refine ⟨?_, ?_, make_cmd_program _, ?_⟩
  · cases s
    case Octal perm =>
      show 0 < (rustOctal4 perm).length
      rw [rustOctal4_length]
      exact lt_of_lt_of_le (by norm_num) (le_max_left 4 _)
    all_goals decide
  · cases hv
    · exact Or.inl rfl
    · exact Or.inr rfl
  · rw [make_cmd_args_join]
    simp

/-- C10: a freshly created builder finalizes to the fixed program name
`git` with the single argument `init`. -/
theorem fresh_builder_cmd :
    Git.init.make_cmd = { program := "git", args := ["init"] } := rfl

end GitCmd
